import Mathlib

/-!
Verification of the ledger_installer device-management core against its
natural-language specification.

The Rust sources embedded here are `src/ledger_manager/src/lib.rs` and
`src/src/ledger.rs` (the two copies share the decoding and relay logic;
where they differ it is noted at the definition).  Byte buffers are
modelled as `List Nat` (each element a byte value), machine integers as
`Nat`, and Rust `Result`s as explicit result types.  A Rust panic
(failed `assert_eq!`, `unwrap()`, or an out-of-bounds index) is modelled
as the distinguished outcome `PResult.panicked`, so "returns an error"
and "panics" are distinguishable propositions.
-/

namespace LedgerSpec

/-- Outcome of a fallible, possibly panicking computation: `ok` models
`Ok(_)`, `err` models `Err(_)` (carrying the error message used by the
source), and `panicked` models a Rust panic (failed `assert_eq!` or
`unwrap()`, or an out-of-bounds slice index). -/
inductive PResult (α : Type) where
  | ok : α → PResult α
  | err : String → PResult α
  | panicked : PResult α
deriving DecidableEq

/-- `u32::from_be_bytes` / big-endian interpretation of a byte list. -/
def u32be (l : List Nat) : Nat :=
  l.foldl (fun a b => a * 256 + b) 0

/-- `u16::from_be_bytes` / big-endian interpretation of a byte list. -/
def u16be (l : List Nat) : Nat :=
  l.foldl (fun a b => a * 256 + b) 0

/-- Whether a byte is a UTF-8 continuation byte (`0x80..=0xBF`). -/
def utf8Cont (c : Nat) : Bool :=
  0x80 ≤ c && c ≤ 0xBF

/-- UTF-8 validity of a byte sequence (RFC 3629: no overlong forms, no
surrogates, at most U+10FFFF); models Rust `str::from_utf8` succeeding. -/
def utf8Valid : List Nat → Bool
  | [] => true
  | b :: l =>
    if b < 0x80 then utf8Valid l
    else if b < 0xC2 then false
    else
      match l with
      | [] => false
      | c :: l2 =>
        if b ≤ 0xDF then utf8Cont c && utf8Valid l2
        else
          match l2 with
          | [] => false
          | d :: l3 =>
            if b = 0xE0 then (0xA0 ≤ c && c ≤ 0xBF) && utf8Cont d && utf8Valid l3
            else if b = 0xED then (0x80 ≤ c && c ≤ 0x9F) && utf8Cont d && utf8Valid l3
            else if b ≤ 0xEF then utf8Cont c && utf8Cont d && utf8Valid l3
            else
              match l3 with
              | [] => false
              | e :: l4 =>
                if b = 0xF0 then (0x90 ≤ c && c ≤ 0xBF) && utf8Cont d && utf8Cont e && utf8Valid l4
                else if b ≤ 0xF3 then utf8Cont c && utf8Cont d && utf8Cont e && utf8Valid l4
                else if b = 0xF4 then (0x80 ≤ c && c ≤ 0x8F) && utf8Cont d && utf8Cont e && utf8Valid l4
                else false

/-- `DeviceInfo` (src/ledger_manager/src/lib.rs:115, src/src/ledger.rs:99).
Strings are kept as their UTF-8 byte sequences. -/
structure DeviceInfo where
  target_id : Nat
  version : List Nat
  flags : List Nat
  is_bootloader : Bool
  se_version : Option (List Nat)
  se_target_id : Nat
  mcu_version : Option (List Nat)
deriving DecidableEq

/-- The bootloader arm of `Ok(if is_bootloader { .. } else { .. })` in
`DeviceInfo::new` (src/ledger_manager/src/lib.rs:165-215): `r4` is the
buffer suffix after the flags field; `is_bootloader` is `true` in this
arm.  The source's two `unwrap()` calls (UTF-8 decoding of `part1` and
the 4-byte conversions of `part2`/`part1`) are panics. -/
def parseBootBranch (target_id : Nat) (raw_ver flags r4 : List Nat) : PResult DeviceInfo :=
  if r4.length < 1 then .err "Not enough data" else
  let part1_len := r4.getD 0 0
  let r5 := r4.drop 1
  if r5.length < part1_len then .err "Not enough data" else
  let part1 := r5.take part1_len
  let r6 := r5.drop part1_len
  if 5 ≤ part1_len then
    -- let se_version = str::from_utf8(part1).unwrap();
    if utf8Valid part1 = false then .panicked else
    if r6.length < 1 then .err "Not enough data" else
    let part2_len := r6.getD 0 0
    let r7 := r6.drop 1
    if r7.length < part2_len then .err "Not enough data" else
    let part2 := r7.take part2_len
    -- let se_target_id = u32::from_be_bytes(part2.try_into().unwrap());
    if part2.length ≠ 4 then .panicked else
    .ok ⟨target_id, raw_ver, flags, true, some part1, u32be part2, none⟩
  else
    -- let se_target_id = u32::from_be_bytes(part1.try_into().unwrap());
    if part1.length ≠ 4 then .panicked else
    .ok ⟨target_id, raw_ver, flags, true, none, u32be part1, none⟩

/-- The application-mode arm of `Ok(if is_bootloader { .. } else { .. })`
in `DeviceInfo::new` (src/ledger_manager/src/lib.rs:216-248):
`is_bootloader` is `false` in this arm.  `mcu[mcu.len() - 1]` panics on
an empty MCU field (index underflow), and `str::from_utf8(mcu).unwrap()`
panics on invalid UTF-8. -/
def parseAppBranch (target_id : Nat) (raw_ver flags r4 : List Nat) : PResult DeviceInfo :=
  if r4.length < 1 then .err "Not enough data" else
  let mcu_len := r4.getD 0 0
  let r5 := r4.drop 1
  if r5.length < mcu_len then .err "Not enough data" else
  let mcu := r5.take mcu_len
  -- mcu[mcu.len() - 1]: on an empty slice the index underflows and panics
  if mcu.length = 0 then .panicked else
  let mcu_stripped := if mcu.getLast? = some 0 then mcu.dropLast else mcu
  -- let mcu_version = str::from_utf8(mcu).unwrap();
  if utf8Valid mcu_stripped = false then .panicked else
  .ok ⟨target_id, raw_ver, flags, false, some raw_ver, target_id, some mcu_stripped⟩

/-- The byte-decoding part of `DeviceInfo::new`
(src/ledger_manager/src/lib.rs:138-249 and, identically,
src/src/ledger.rs:115-226), applied to the payload of the
GET_VERSION response.  The source walks the buffer with a cursor `i`;
here the cursor position `i` is represented by the remaining suffix
`data.drop i`, so each source check `data.len() < i + n` appears as
`(data.drop i).length < n` once `data.len() ≥ i` is established by the
preceding check.  `str::from_utf8(..)?` on the version becomes an `err`;
the source's `unwrap()` calls and the `mcu[mcu.len() - 1]` index (which
underflows on an empty slice) become `panicked`. -/
def parseDeviceInfo (data : List Nat) : PResult DeviceInfo :=
  -- if data.len() < 5 { return Err("Not enough data") }
  if data.length < 5 then .err "Not enough data" else
  -- let target_id = u32::from_be_bytes(data[i..i + 4]); i += 4;
  let target_id := u32be (data.take 4)
  let r0 := data.drop 4
  -- let raw_ver_len = data[i] as usize; i += 1;
  let raw_ver_len := r0.getD 0 0
  let r1 := r0.drop 1
  -- if data.len() < i + raw_ver_len + 1 { return Err("Not enough data") }
  if r1.length < raw_ver_len + 1 then .err "Not enough data" else
  -- let raw_ver = &data[i..i + raw_ver_len]; i += raw_ver_len; str::from_utf8(raw_ver)?
  let raw_ver := r1.take raw_ver_len
  if utf8Valid raw_ver = false then .err "invalid utf-8" else
  let r2 := r1.drop raw_ver_len
  -- let flags_len = data[i] as usize; i += 1;
  let flags_len := r2.getD 0 0
  let r3 := r2.drop 1
  -- if data.len() < i + flags_len { return Err("Not enough data") }
  if r3.length < flags_len then .err "Not enough data" else
  let flags := r3.take flags_len
  let r4 := r3.drop flags_len
  -- let is_bootloader = (target_id & 4026531840) != 805306368;
  let is_bootloader := (target_id &&& 4026531840) != 805306368
  if is_bootloader then parseBootBranch target_id raw_ver flags r4
  else parseAppBranch target_id raw_ver flags r4

/-- The mode-dependent tail of an identity response buffer: application
mode carries an MCU version field, bootloader mode carries either a bare
4-byte secure-element target id (`bootShort`) or a secure-element
version string followed by the 4-byte target id (`bootLong`). -/
inductive IdentTail where
  | app : List Nat → IdentTail
  | bootShort : List Nat → IdentTail
  | bootLong : List Nat → List Nat → IdentTail
deriving DecidableEq

/-- Description of a syntactically valid identity response buffer:
the four raw `target_id` bytes, the version and flags fields, and the
mode-dependent tail. -/
structure IdentDesc where
  tid : List Nat
  version : List Nat
  flags : List Nat
  tail : IdentTail
deriving DecidableEq

/-- Wire encoding of the tail (each field is length-prefixed). -/
def encodeTail : IdentTail → List Nat
  | .app mcu => mcu.length :: mcu
  | .bootShort p1 => p1.length :: p1
  | .bootLong sv p2 => (sv.length :: sv) ++ (p2.length :: p2)

/-- Wire encoding of an identity response buffer: 4 raw target-id bytes,
length-prefixed version, length-prefixed flags, then the tail. -/
def encodeIdent (d : IdentDesc) : List Nat :=
  d.tid ++ (d.version.length :: d.version) ++ (d.flags.length :: d.flags) ++ encodeTail d.tail

/-- All bytes of a buffer are in range. -/
def allBytes (l : List Nat) : Prop :=
  ∀ b ∈ l, b < 256

instance (l : List Nat) : Decidable (allBytes l) :=
  inferInstanceAs (Decidable (∀ b ∈ l, b < 256))

/-- Trailing-NUL stripping applied to the MCU version field by the
application-mode branch of `DeviceInfo::new`. -/
def stripNul (mcu : List Nat) : List Nat :=
  if mcu.getLast? = some 0 then mcu.dropLast else mcu

/-- Well-formedness of the tail of an identity description: the
conditions under which `DeviceInfo::new` decodes the corresponding
buffer without error or panic.  Application mode requires the low
branch of the `target_id` discriminator, a non-empty valid-UTF-8 MCU
field; bootloader mode requires the other branch and a 4-byte target id
(plus, in the long form, a valid version string of length at least 5). -/
def wfTail (tid : List Nat) : IdentTail → Prop
  | .app mcu =>
      (u32be tid &&& 4026531840) = 805306368 ∧ mcu.length ≤ 255 ∧ mcu ≠ [] ∧
        utf8Valid (stripNul mcu) = true ∧ allBytes mcu
  | .bootShort p1 =>
      (u32be tid &&& 4026531840) ≠ 805306368 ∧ p1.length = 4 ∧ allBytes p1
  | .bootLong sv p2 =>
      (u32be tid &&& 4026531840) ≠ 805306368 ∧ 5 ≤ sv.length ∧ sv.length ≤ 255 ∧
        utf8Valid sv = true ∧ allBytes sv ∧ p2.length = 4 ∧ allBytes p2

instance (tid : List Nat) (t : IdentTail) : Decidable (wfTail tid t) := by
  cases t <;> simp only [wfTail] <;> infer_instance

/-- Well-formedness of an identity description: exactly the conditions
under which its encoding is a byte buffer that `DeviceInfo::new`
decodes successfully. -/
def wfIdent (d : IdentDesc) : Prop :=
  d.tid.length = 4 ∧ allBytes d.tid ∧
  d.version.length ≤ 255 ∧ utf8Valid d.version = true ∧ allBytes d.version ∧
  d.flags.length ≤ 255 ∧ allBytes d.flags ∧
  wfTail d.tid d.tail

instance (d : IdentDesc) : Decidable (wfIdent d) := by
  unfold wfIdent; infer_instance

/-- The `DeviceInfo` record produced by decoding `encodeIdent d`. -/
def identInfo (d : IdentDesc) : DeviceInfo :=
  match d.tail with
  | .app mcu =>
      ⟨u32be d.tid, d.version, d.flags, false, some d.version, u32be d.tid, some (stripNul mcu)⟩
  | .bootShort p1 =>
      ⟨u32be d.tid, d.version, d.flags, true, none, u32be p1, none⟩
  | .bootLong sv p2 =>
      ⟨u32be d.tid, d.version, d.flags, true, some sv, u32be p2, none⟩

/-- The truncations of `encodeIdent d` at each internal field boundary:
after the raw target id, after each length byte, and after each
length-prefixed field, stopping short of the end of the buffer. -/
def truncations (d : IdentDesc) : List (List Nat) :=
  [d.tid,
   d.tid ++ [d.version.length],
   d.tid ++ (d.version.length :: d.version),
   d.tid ++ (d.version.length :: d.version) ++ [d.flags.length],
   d.tid ++ (d.version.length :: d.version) ++ (d.flags.length :: d.flags)] ++
  (match d.tail with
   | .app mcu =>
       [d.tid ++ (d.version.length :: d.version) ++ (d.flags.length :: d.flags) ++ [mcu.length]]
   | .bootShort p1 =>
       [d.tid ++ (d.version.length :: d.version) ++ (d.flags.length :: d.flags) ++ [p1.length]]
   | .bootLong sv p2 =>
       [d.tid ++ (d.version.length :: d.version) ++ (d.flags.length :: d.flags) ++ [sv.length],
        d.tid ++ (d.version.length :: d.version) ++ (d.flags.length :: d.flags) ++
          (sv.length :: sv),
        d.tid ++ (d.version.length :: d.version) ++ (d.flags.length :: d.flags) ++
          (sv.length :: sv) ++ [p2.length]])

/-- `InstalledApp` (src/ledger_manager/src/lib.rs:254, src/src/ledger.rs:231).
The name is kept as its UTF-8 byte sequence. -/
structure InstalledApp where
  name : List Nat
  hash : List Nat
  hash_code_data : List Nat
  blocks : Nat
  flags : Nat
deriving DecidableEq

/-- The inner entry-decoding loop of `list_installed_apps_raw`
(src/ledger_manager/src/lib.rs:411-445; identical in
src/src/ledger.rs:388-422 as `list_installed_apps`).  `rem` is the
suffix of the batch payload from the cursor `i` on, so the source's
`i < data.len()` is `rem ≠ []` and `data.len() < i + 70` is
`rem.length < 70`.  Entries are appended to `acc` in decode order. -/
def parseAppsEntries (rem : List Nat) (acc : List InstalledApp) : PResult (List InstalledApp) :=
  if h0 : rem.isEmpty then .ok acc else
  -- if data.len() < i + 1 + 2 + 2 + 32 + 32 + 1 { return Err("Not enough data") }
  if h70 : rem.length < 70 then .err "Not enough data" else
  let len := rem.getD 0 0
  let r1 := rem.drop 1
  let blocks := u16be (r1.take 2)
  let r2 := r1.drop 2
  let flags := u16be (r2.take 2)
  let r3 := r2.drop 2
  let hash_code_data := r3.take 32
  let r4 := r3.drop 32
  let hash := r4.take 32
  let r5 := r4.drop 32
  let name_len := r5.getD 0 0
  let r6 := r5.drop 1
  -- if data.len() < i + name_len { return Err("Not enough data") }
  if r6.length < name_len then .err "Not enough data" else
  -- if len != name_len + 70 { return Err("Invalid listApps length data.") }
  if len ≠ name_len + 70 then .err "Invalid listApps length data." else
  let name := r6.take name_len
  -- str::from_utf8(&data[i..i + name_len])?
  if utf8Valid name = false then .err "invalid utf-8" else
  parseAppsEntries (r6.drop name_len)
    (acc ++ [⟨name, hash, hash_code_data, blocks, flags⟩])
termination_by rem.length
decreasing_by simp only [List.length_drop]; omega

/-- The outer batch loop of `list_installed_apps_raw`
(src/ledger_manager/src/lib.rs:401-449): the device channel is modelled
as the list of response payloads it returns in order (first the
LIST_APPS response, then one CONTINUE_LIST_APPS response per further
exchange).  An exhausted script models the transport failing.  The
source's `assert_eq!(data[i], 0x01)` on a non-empty payload is a panic
when the first byte differs from `0x01`. -/
def listInstalledAppsGo (batches : List (List Nat)) (acc : List InstalledApp) :
    PResult (List InstalledApp) :=
  match batches with
  | [] => .err "transport error"
  | data :: rest =>
    -- while !data.is_empty()
    if data.isEmpty then .ok acc
    -- assert_eq!(data[i], 0x01)
    else if data.getD 0 0 ≠ 1 then .panicked
    else
      match parseAppsEntries (data.drop 1) acc with
      | .ok acc2 => listInstalledAppsGo rest acc2
      | .err e => .err e
      | .panicked => .panicked

/-- `list_installed_apps_raw` (src/ledger_manager/src/lib.rs:398-452),
with the device channel modelled as the scripted list of its response
payloads. -/
def listInstalledAppsRaw (batches : List (List Nat)) : PResult (List InstalledApp) :=
  listInstalledAppsGo batches []

/-- Big-endian 2-byte encoding of a `u16` value. -/
def be2 (n : Nat) : List Nat :=
  [n / 256 % 256, n % 256]

/-- Wire encoding of one inventory entry: 1-byte declared length
(`70 + name length`), 2-byte block count, 2-byte flags, 32-byte code
hash, 32-byte content hash, 1-byte name length, name bytes. -/
def encodeEntry (a : InstalledApp) : List Nat :=
  (70 + a.name.length) ::
    (be2 a.blocks ++ be2 a.flags ++ a.hash_code_data ++ a.hash ++ (a.name.length :: a.name))

/-- Well-formedness of a synthetic inventory entry: field widths as the
wire format declares them, and a name that is valid UTF-8 and short
enough for its declared length to fit one byte. -/
def wfEntry (a : InstalledApp) : Prop :=
  a.blocks < 65536 ∧ a.flags < 65536 ∧
  a.hash_code_data.length = 32 ∧ a.hash.length = 32 ∧
  a.name.length ≤ 185 ∧ utf8Valid a.name = true ∧
  allBytes a.name ∧ allBytes a.hash_code_data ∧ allBytes a.hash

instance (a : InstalledApp) : Decidable (wfEntry a) := by
  unfold wfEntry; infer_instance

/-- A single device exchange result, as seen through
`ledger_apdu::APDUAnswer`: `data` is `answer.data()` (the payload
without the trailing status word) and `retcode` is `answer.retcode()`. -/
structure Response where
  data : List Nat
  retcode : Nat
deriving DecidableEq

/-- `APDUCommand` as decoded from a hex instruction. -/
structure ApduCommand where
  cla : Nat
  ins : Nat
  p1 : Nat
  p2 : Nat
  data : List Nat
deriving DecidableEq

/-- Value of one hex digit character, as accepted by `hex::decode`. -/
def hexDigitVal (c : Char) : Option Nat :=
  if '0' ≤ c ∧ c ≤ '9' then some (c.toNat - '0'.toNat)
  else if 'a' ≤ c ∧ c ≤ 'f' then some (c.toNat - 'a'.toNat + 10)
  else if 'A' ≤ c ∧ c ≤ 'F' then some (c.toNat - 'A'.toNat + 10)
  else none

/-- `hex::decode`: fails on odd length or a non-hex character. -/
def hexDecode : List Char → Option (List Nat)
  | [] => some []
  | [_] => none
  | c1 :: c2 :: rest =>
    match hexDigitVal c1, hexDigitVal c2, hexDecode rest with
    | some hi, some lo, some bs => some ((16 * hi + lo) :: bs)
    | _, _, _ => none

/-- Lowercase hex digit character for a value below 16. -/
def hexDigitChar (n : Nat) : Char :=
  if n < 10 then Char.ofNat ( '0'.toNat + n) else Char.ofNat ( 'a'.toNat + n - 10)

/-- `hex::encode` (lowercase). -/
def hexEncode (bs : List Nat) : List Char :=
  bs.flatMap (fun b => [hexDigitChar (b / 16), hexDigitChar (b % 16)])

/-- `deser_apdu_command` (src/ledger_manager/src/lib.rs:276-294,
src/src/ledger.rs:253-271): hex-decode the instruction, require at
least the 5 header bytes, and require the declared payload length to
match the actual length. -/
def deserApduCommand (hexStr : List Char) : Except String ApduCommand :=
  match hexDecode hexStr with
  | none => .error "invalid hex"
  | some bytes =>
    if bytes.length < 5 then .error "Invalid command" else
    let data_len := bytes.getD 4 0
    if bytes.length ≠ 5 + data_len then .error "Invalid command" else
    .ok ⟨bytes.getD 0 0, bytes.getD 1 0, bytes.getD 2 0, bytes.getD 3 0, bytes.drop 5⟩

/-- The `data` field of an inbound HSM JSON message: either a single
hex command string or a list of hex command strings (serde untagged). -/
inductive HsmMessageData where
  | command : List Char → HsmMessageData
  | commandList : List (List Char) → HsmMessageData
deriving DecidableEq

/-- An inbound HSM JSON message (`HsmMessage` in the source). -/
structure HsmMessage where
  query : String
  nonce : Nat
  data : Option HsmMessageData
deriving DecidableEq

/-- An inbound websocket message: a JSON text message (already
deserialized) or any non-text message. -/
inductive WsIncoming where
  | text : HsmMessage → WsIncoming
  | nonText : WsIncoming
deriving DecidableEq

/-- An outbound reply `{nonce, response, data}` sent on the websocket. -/
structure WsReply where
  nonce : Nat
  response : String
  data : List Char
deriving DecidableEq

/-- Result of running the relay loop: `completed` models `Ok(())` after
a `success` query, `failed` models any `Err(_)` return.  Both carry the
replies sent on the socket up to that point, in order. -/
inductive RelayResult where
  | completed : List WsReply → RelayResult
  | failed : String → List WsReply → RelayResult
deriving DecidableEq

/-- The `for cmd_hex in commands` loop of the bulk branch
(src/ledger_manager/src/lib.rs:356-362): execute every non-empty entry
in order against the scripted device, discarding each result; a decode
failure or a device-channel failure (script exhausted) aborts.  Returns
the remaining device script. -/
def bulkExec (cmds : List (List Char)) (device : List Response) :
    Except String (List Response) :=
  match cmds with
  | [] => .ok device
  | c :: rest =>
    if c.isEmpty then bulkExec rest device
    else
      match deserApduCommand c with
      | .error e => .error e
      | .ok _ =>
        match device with
        | [] => .error "transport error"
        | _ :: device2 => bulkExec rest device2

/-- Number of non-empty command entries in a bulk list: exactly the
number of device exchanges the bulk branch performs. -/
def countNonEmpty (l : List (List Char)) : Nat :=
  (l.filter (fun c => !c.isEmpty)).length

/-- The relay loop of `query_via_websocket`
(src/ledger_manager/src/lib.rs:307-394, identical in
src/src/ledger.rs:284-371).  The websocket inbound side is modelled as
the scripted list `msgs`, the device as the scripted list `device` of
responses returned by successive `exchange` calls, and `sent`
accumulates the replies written to the socket.  An exhausted inbound
script models `socket.read()` failing. -/
def runRelayGo (msgs : List WsIncoming) (device : List Response) (sent : List WsReply) :
    RelayResult :=
  match msgs with
  | [] => .failed "read error" sent
  | .nonText :: _ => .failed "Got an unsupported message type on the ws." sent
  | .text m :: rest =>
    if m.query = "exchange" then
      match m.data with
      | some (.command h) =>
        match deserApduCommand h with
        | .error e => .failed e sent
        | .ok _ =>
          match device with
          | [] => .failed "transport error" sent
          | resp :: device2 =>
            -- status 0x9000 = 36864 maps to "success", anything else to "error"
            let response := if resp.retcode = 36864 then "success" else "error"
            runRelayGo rest device2 (sent ++ [⟨m.nonce, response, hexEncode resp.data⟩])
      | _ => .failed "A single command is expected in 'exchange' mode." sent
    else if m.query = "bulk" then
      match m.data with
      | some (.commandList l) =>
        match bulkExec l device with
        | .error e => .failed e sent
        | .ok device2 => runRelayGo rest device2 (sent ++ [⟨m.nonce, "success", []⟩])
      | _ => .failed "Expecting a list of commands in bulk mode." sent
    else if m.query = "success" then .completed sent
    else if m.query = "error" then .failed "Got an error query on the ws." sent
    else if m.query = "warning" then runRelayGo rest device sent
    else .failed "Got an unsupported query on the ws." sent

/-- `BitcoinAppInfo` (src/ledger_manager/src/lib.rs:537-550): catalog
metadata for one application record. -/
structure BitcoinAppInfo where
  version_name : String
  version_id : Nat
  version : String
  perso : String
  delete_key : String
  firmware : String
  firmware_key : String
  hash : String
deriving DecidableEq

/-- An HTTP request made to the Ledger catalog API: a `POST /apps/hash`
lookup with the given content hashes, or a `GET /apps/by-target` lookup
for the given device identity. -/
inductive CatalogEvent where
  | hashLookup : List (List Nat) → CatalogEvent
  | byTarget : DeviceInfo → CatalogEvent
deriving DecidableEq

/-- Scripted collaborators of the use-case layer: the device's
GET_VERSION response, its list-apps response payloads, and the catalog
endpoints' responses (as functions of the request). -/
structure LedgerEnv where
  versionResp : Response
  listAppsBatches : List (List Nat)
  hashResp : List (List Nat) → Except String (List (Option BitcoinAppInfo))
  byTargetResp : DeviceInfo → Except String (List BitcoinAppInfo)

/-- `DeviceInfo::new` (src/ledger_manager/src/lib.rs:129-249) including
its return-code handling: locked device (0x5515 = 21781), any non-OK
code, then the byte decoding of the payload. -/
def deviceInfoNew (resp : Response) : PResult DeviceInfo :=
  if resp.retcode = 21781 then .err "Device is locked."
  else if resp.retcode ≠ 36864 then .err "Device is not ready."
  else parseDeviceInfo resp.data

/-- `bitcoin_apps_by_hashes` (src/ledger_manager/src/lib.rs:555-571):
an empty hash list short-circuits to an empty result; otherwise one
`POST /apps/hash` request is made.  The second component records the
catalog requests performed. -/
def bitcoinAppsByHashes (env : LedgerEnv) (hashes : List (List Nat)) :
    Except String (List (Option BitcoinAppInfo)) × List CatalogEvent :=
  if hashes.isEmpty then (.ok [], [])
  else (env.hashResp hashes, [.hashLookup hashes])

/-- `list_installed_apps` (src/ledger_manager/src/lib.rs:456-467): read
the raw inventory from the device, and resolve the content hashes
through the catalog unless there are none. -/
def listInstalledAppsMeta (env : LedgerEnv) :
    PResult (List (Option BitcoinAppInfo)) × List CatalogEvent :=
  match listInstalledAppsRaw env.listAppsBatches with
  | .err e => (.err e, [])
  | .panicked => (.panicked, [])
  | .ok apps =>
    let hashes := apps.map (fun a => a.hash)
    if hashes.isEmpty then (.ok [], [])
    else
      match bitcoinAppsByHashes env hashes with
      | (.ok l, evs) => (.ok l, evs)
      | (.error e, evs) => (.err e, evs)

/-- ASCII lowercasing of a byte string; models `str::to_lowercase` on
the app names involved here (the constants compared against are pure
ASCII). -/
def asciiToLower (l : List Nat) : List Nat :=
  l.map (fun b => if 65 ≤ b ∧ b ≤ 90 then b + 32 else b)

/-- The UTF-8 bytes of "bitcoin test" / "bitcoin"
(src/ledger_manager/src/lib.rs:474-478). -/
def lowercaseAppName (is_testnet : Bool) : List Nat :=
  if is_testnet then [98, 105, 116, 99, 111, 105, 110, 32, 116, 101, 115, 116]
  else [98, 105, 116, 99, 111, 105, 110]

/-- `bitcoin_app_installed` (src/ledger_manager/src/lib.rs:470-482):
find the first installed app whose lowercased name matches the variant. -/
def bitcoinAppInstalled (env : LedgerEnv) (is_testnet : Bool) :
    PResult (Option InstalledApp) :=
  match listInstalledAppsRaw env.listAppsBatches with
  | .err e => .err e
  | .panicked => .panicked
  | .ok apps =>
      .ok (apps.find? (fun app => asciiToLower app.name == lowercaseAppName is_testnet))

/-- ASCII lowercasing of one character; models `char::to_lowercase` on
the ASCII app names involved here. -/
def charLower (c : Char) : Char :=
  if 65 ≤ c.toNat ∧ c.toNat ≤ 90 then Char.ofNat (c.toNat + 32) else c

/-- ASCII lowercasing of a string; models `str::to_lowercase` on the
ASCII app names compared against "bitcoin" / "bitcoin test". -/
def strLower (s : String) : String :=
  ⟨s.data.map charLower⟩

/-- The `for_each` accumulation of `get_latest_apps`
(src/ledger_manager/src/lib.rs:594-604): scan the records, keeping the
last one named "bitcoin" and the last one named "bitcoin test"
(case-insensitively). -/
def pickApps (apps : List BitcoinAppInfo) :
    Option BitcoinAppInfo × Option BitcoinAppInfo :=
  apps.foldl
    (fun acc app =>
      if strLower app.version_name = "bitcoin" then (some app, acc.2)
      else if strLower app.version_name = "bitcoin test" then (acc.1, some app)
      else acc)
    (none, none)

/-- `get_latest_apps` (src/ledger_manager/src/lib.rs:579-607): one
`GET /apps/by-target` request, then the name-based selection. -/
def getLatestApps (env : LedgerEnv) (di : DeviceInfo) :
    Except String (Option BitcoinAppInfo × Option BitcoinAppInfo) × List CatalogEvent :=
  match env.byTargetResp di with
  | .error e => (.error e, [.byTarget di])
  | .ok apps => (.ok (pickApps apps), [.byTarget di])

/-- `bitcoin_latest_app` (src/ledger_manager/src/lib.rs:611-617). -/
def bitcoinLatestApp (env : LedgerEnv) (di : DeviceInfo) (is_testnet : Bool) :
    Except String (Option BitcoinAppInfo) × List CatalogEvent :=
  match getLatestApps env di with
  | (.error e, evs) => (.error e, evs)
  | (.ok apps, evs) => (.ok (if is_testnet then apps.2 else apps.1), evs)

/-- Outcome of `install_bitcoin_app`.  `relay di app` marks reaching
`install_app` (src/ledger_manager/src/lib.rs:661-676), i.e. opening the
websocket relay channel parameterized by the device identity and the
catalog record; everything after that point is the relay loop already
modelled by `runRelayGo`. -/
inductive InstallOutcome where
  | alreadyInstalled
  | appNotFound
  | anyErr : String → InstallOutcome
  | panicked
  | relay : DeviceInfo → BitcoinAppInfo → InstallOutcome
deriving DecidableEq

/-- `install_bitcoin_app` (src/ledger_manager/src/lib.rs:680-699),
with the catalog requests it performs recorded alongside the outcome. -/
def installBitcoinApp (env : LedgerEnv) (is_testnet : Bool) :
    InstallOutcome × List CatalogEvent :=
  -- First of all make sure it's not already installed.
  match bitcoinAppInstalled env is_testnet with
  | .err e => (.anyErr e, [])
  | .panicked => (.panicked, [])
  | .ok (some _) => (.alreadyInstalled, [])
  | .ok none =>
    match deviceInfoNew env.versionResp with
    | .err e => (.anyErr e, [])
    | .panicked => (.panicked, [])
    | .ok di =>
      match bitcoinLatestApp env di is_testnet with
      | (.error e, evs) => (.anyErr e, evs)
      | (.ok none, evs) => (.appNotFound, evs)
      | (.ok (some app), evs) => (.relay di app, evs)

/-- Outcome of `update_bitcoin_app`; `relay di app` as in
`InstallOutcome`. -/
inductive UpdateOutcome where
  | notInstalled
  | appNotFound
  | alreadyLatest
  | anyErr : String → UpdateOutcome
  | panicked
  | relay : DeviceInfo → BitcoinAppInfo → UpdateOutcome
deriving DecidableEq

/-- `update_bitcoin_app` (src/ledger_manager/src/lib.rs:715-749), with
the catalog requests it performs recorded alongside the outcome.  Note
`installed_app` is the first *element* of the `/apps/hash` response
(itself an `Option`): `AppNotFound` at that step requires an *empty*
response array, not a null record. -/
def updateBitcoinApp (env : LedgerEnv) (is_testnet : Bool) :
    UpdateOutcome × List CatalogEvent :=
  match bitcoinAppInstalled env is_testnet with
  | .err e => (.anyErr e, [])
  | .panicked => (.panicked, [])
  | .ok none => (.notInstalled, [])
  | .ok (some app) =>
    match bitcoinAppsByHashes env [app.hash] with
    | (.error e, evs) => (.anyErr e, evs)
    | (.ok lst, evs) =>
      match lst.head? with
      | none => (.appNotFound, evs)
      | some installed_app =>
        match deviceInfoNew env.versionResp with
        | .err e => (.anyErr e, evs)
        | .panicked => (.panicked, evs)
        | .ok di =>
          match bitcoinLatestApp env di is_testnet with
          | (.error e, evs2) => (.anyErr e, evs ++ evs2)
          | (.ok none, evs2) => (.appNotFound, evs ++ evs2)
          | (.ok (some latest), evs2) =>
            if (installed_app.map (fun a => a.version == latest.version)).getD false
            then (.alreadyLatest, evs ++ evs2)
            else (.relay di latest, evs ++ evs2)

/-! Concrete fixtures used to instantiate hypotheses of the claim
theorems (scripted devices and catalog responses). -/

/-- An installed mainnet Bitcoin app entry ("Bitcoin", zero hashes). -/
def btcEntry : InstalledApp :=
  ⟨[66, 105, 116, 99, 111, 105, 110], List.replicate 32 0, List.replicate 32 0, 0, 0⟩

/-- A catalog record for the mainnet Bitcoin app. -/
def btcAppInfo : BitcoinAppInfo :=
  ⟨"Bitcoin", 1, "2.0.0", "perso", "dk", "fw", "fk", "hh"⟩

/-- An application-mode GET_VERSION response with status OK. -/
def versionRespApp : Response :=
  ⟨[49, 0, 0, 0, 0, 0, 1, 0], 36864⟩

/-- The identity decoded from `versionRespApp`. -/
def diApp : DeviceInfo :=
  ⟨822083584, [], [], false, some [], 822083584, some []⟩

/-- Environment: Bitcoin app installed; the hash lookup answers with a
null record (`[none]`); the by-target lookup finds a latest record. -/
def envNullHash : LedgerEnv :=
  ⟨versionRespApp, [1 :: encodeEntry btcEntry, []],
    fun _ => .ok [none], fun _ => .ok [btcAppInfo]⟩

/-- Environment: Bitcoin app installed; the hash lookup answers with an
empty array; the by-target lookup finds a latest record. -/
def envEmptyHash : LedgerEnv :=
  ⟨versionRespApp, [1 :: encodeEntry btcEntry, []],
    fun _ => .ok [], fun _ => .ok [btcAppInfo]⟩

/-- Environment: the device reports no installed applications. -/
def envNoApps : LedgerEnv :=
  ⟨versionRespApp, [[]], fun _ => .ok [], fun _ => .ok []⟩

/-- A well-formed hex command string: "e001000000" (the GET_VERSION
header with an empty payload). -/
def goodHexCmd : List Char :=
  [ 'e', '0', '0', '1', '0', '0', '0', '0', '0', '0']

/-- A malformed hex command string. -/
def badHexCmd : List Char :=
  [ 'z', 'z']

/-! Decoder lemmas: full decodes of encoded identity buffers, and the
behaviour of the decoder on each field-boundary truncation. -/

lemma parse_encode_app (tid ver fl mcu : List Nat)
    (htid : tid.length = 4)
    (hver : utf8Valid ver = true)
    (hb : (u32be tid &&& 4026531840) = 805306368)
    (hm : mcu ≠ [])
    (hmu : utf8Valid (stripNul mcu) = true) :
    parseDeviceInfo (encodeIdent ⟨tid, ver, fl, .app mcu⟩) =
      .ok (identInfo ⟨tid, ver, fl, .app mcu⟩) := by
  simp only [encodeIdent, encodeTail, identInfo, List.append_assoc, List.cons_append]
  simp only [parseDeviceInfo, parseBootBranch, parseAppBranch]
  rw [List.take_left' htid, List.drop_left' htid]
  simp only [List.getD_cons_zero, List.drop_one, List.tail_cons, List.take_left,
    List.drop_left, List.length_append, List.length_cons, hver, hb, bne_self_eq_false,
    List.take_length, List.drop_length, List.length_take]
  rw [if_neg (by omega), if_neg (by omega), if_neg (by simp), if_neg (by omega),
    if_neg (by simp), if_neg (by omega), if_neg (by omega),
    if_neg (by simpa using hm)]
  simp only [stripNul] at hmu
  rw [if_neg (by simp [hmu])]
  simp [stripNul]

lemma parse_encode_bootShort (tid ver fl p1 : List Nat)
    (htid : tid.length = 4)
    (hver : utf8Valid ver = true)
    (hb : (u32be tid &&& 4026531840) ≠ 805306368)
    (hp4 : p1.length = 4) :
    parseDeviceInfo (encodeIdent ⟨tid, ver, fl, .bootShort p1⟩) =
      .ok (identInfo ⟨tid, ver, fl, .bootShort p1⟩) := by
  simp only [encodeIdent, encodeTail, identInfo, List.append_assoc, List.cons_append]
  simp only [parseDeviceInfo, parseBootBranch, parseAppBranch]
  rw [List.take_left' htid, List.drop_left' htid]
  simp only [List.getD_cons_zero, List.drop_one, List.tail_cons, List.take_left,
    List.drop_left, List.length_append, List.length_cons, hver, bne_iff_ne,
    List.take_length, List.drop_length, List.length_take]
  rw [if_neg (by omega), if_neg (by omega), if_neg (by simp), if_neg (by omega),
    if_pos hb, if_neg (by omega), if_neg (by omega), if_neg (by omega),
    if_neg (by simp [hp4])]

lemma parse_encode_bootLong (tid ver fl sv p2 : List Nat)
    (htid : tid.length = 4)
    (hver : utf8Valid ver = true)
    (hb : (u32be tid &&& 4026531840) ≠ 805306368)
    (hsv5 : 5 ≤ sv.length)
    (hsvu : utf8Valid sv = true) :
    parseDeviceInfo (encodeIdent ⟨tid, ver, fl, .bootLong sv p2⟩) =
      if p2.length = 4 then .ok (identInfo ⟨tid, ver, fl, .bootLong sv p2⟩)
      else .panicked := by
  simp only [encodeIdent, encodeTail, identInfo, List.append_assoc, List.cons_append]
  simp only [parseDeviceInfo, parseBootBranch, parseAppBranch]
  rw [List.take_left' htid, List.drop_left' htid]
  simp only [List.getD_cons_zero, List.drop_one, List.tail_cons, List.take_left,
    List.drop_left, List.length_append, List.length_cons, hver, bne_iff_ne,
    List.take_length, List.drop_length, List.length_take]
  rw [if_neg (by omega), if_neg (by omega), if_neg (by simp), if_neg (by omega),
    if_pos hb, if_neg (by omega), if_neg (by omega), if_pos hsv5,
    if_neg (by simp [hsvu]), if_neg (by omega), if_neg (by omega)]
  by_cases hp : p2.length = 4 <;> simp [hp, bne_iff_ne, hb]

lemma parse_trunc_tid (tid : List Nat) (htid : tid.length = 4) :
    parseDeviceInfo tid = .err "Not enough data" := by
  simp [parseDeviceInfo, htid]

lemma parse_trunc_verlen (tid : List Nat) (v : Nat) (htid : tid.length = 4) :
    parseDeviceInfo (tid ++ [v]) = .err "Not enough data" := by
  simp only [parseDeviceInfo, parseBootBranch, parseAppBranch]
  rw [List.drop_left' htid]
  simp [List.length_append, htid]

lemma parse_trunc_ver (tid ver : List Nat) (htid : tid.length = 4) :
    parseDeviceInfo (tid ++ (ver.length :: ver)) = .err "Not enough data" := by
  simp only [parseDeviceInfo, parseBootBranch, parseAppBranch]
  rw [List.drop_left' htid]
  simp only [List.getD_cons_zero, List.drop_one, List.tail_cons, List.length_append,
    List.length_cons, htid]
  rw [if_neg (by omega), if_pos (by omega)]

lemma parse_trunc_flagslen (tid ver : List Nat) (f : Nat) (htid : tid.length = 4)
    (hver : utf8Valid ver = true) :
    parseDeviceInfo (tid ++ (ver.length :: ver) ++ [f]) = .err "Not enough data" := by
  simp only [List.append_assoc, List.cons_append, List.singleton_append]
  simp only [parseDeviceInfo, parseBootBranch, parseAppBranch]
  rw [List.drop_left' htid]
  simp only [List.getD_cons_zero, List.drop_one, List.tail_cons, List.length_append,
    List.length_cons, htid, List.take_left, List.drop_left, hver,
    List.take_length, List.drop_length, List.length_take, List.length_nil]
  rw [if_neg (by omega), if_neg (by omega), if_neg (by simp)]
  rcases Nat.eq_zero_or_pos f with hf | hf
  · simp [hf, ite_self]
  · rw [if_pos (by omega)]

lemma parse_trunc_flags (tid ver fl : List Nat) (htid : tid.length = 4)
    (hver : utf8Valid ver = true) :
    parseDeviceInfo (tid ++ (ver.length :: ver) ++ (fl.length :: fl)) =
      .err "Not enough data" := by
  simp only [List.append_assoc, List.cons_append]
  simp only [parseDeviceInfo, parseBootBranch, parseAppBranch]
  rw [List.drop_left' htid]
  simp only [List.getD_cons_zero, List.drop_one, List.tail_cons, List.length_append,
    List.length_cons, htid, List.take_left, List.drop_left, hver,
    List.take_length, List.drop_length, List.length_take, List.length_nil]
  rw [if_neg (by omega), if_neg (by omega), if_neg (by simp), if_neg (by omega)]
  simp [ite_self]

lemma parse_trunc_mculen (tid ver fl : List Nat) (m : Nat) (htid : tid.length = 4)
    (hver : utf8Valid ver = true)
    (hb : (u32be tid &&& 4026531840) = 805306368)
    (hm : 0 < m) :
    parseDeviceInfo (tid ++ (ver.length :: ver) ++ (fl.length :: fl) ++ [m]) =
      .err "Not enough data" := by
  simp only [List.append_assoc, List.cons_append, List.singleton_append]
  simp only [parseDeviceInfo, parseBootBranch, parseAppBranch]
  rw [List.take_left' htid, List.drop_left' htid]
  simp only [List.getD_cons_zero, List.drop_one, List.tail_cons, List.length_append,
    List.length_cons, htid, List.take_left, List.drop_left, hver, hb, bne_self_eq_false,
    List.take_length, List.drop_length, List.length_take, List.length_nil]
  rw [if_neg (by omega), if_neg (by omega), if_neg (by simp), if_neg (by omega),
    if_neg (by simp), if_neg (by omega), if_pos (by omega)]

lemma parse_trunc_p1len (tid ver fl : List Nat) (p : Nat) (htid : tid.length = 4)
    (hver : utf8Valid ver = true)
    (hb : (u32be tid &&& 4026531840) ≠ 805306368)
    (hp : 0 < p) :
    parseDeviceInfo (tid ++ (ver.length :: ver) ++ (fl.length :: fl) ++ [p]) =
      .err "Not enough data" := by
  simp only [List.append_assoc, List.cons_append, List.singleton_append]
  simp only [parseDeviceInfo, parseBootBranch, parseAppBranch]
  rw [List.take_left' htid, List.drop_left' htid]
  simp only [List.getD_cons_zero, List.drop_one, List.tail_cons, List.length_append,
    List.length_cons, htid, List.take_left, List.drop_left, hver, bne_iff_ne,
    List.take_length, List.drop_length, List.length_take, List.length_nil]
  rw [if_neg (by omega), if_neg (by omega), if_neg (by simp), if_neg (by omega),
    if_pos hb, if_neg (by omega), if_pos (by omega)]

lemma parse_trunc_sever (tid ver fl sv : List Nat) (htid : tid.length = 4)
    (hver : utf8Valid ver = true)
    (hb : (u32be tid &&& 4026531840) ≠ 805306368)
    (hsv5 : 5 ≤ sv.length)
    (hsvu : utf8Valid sv = true) :
    parseDeviceInfo (tid ++ (ver.length :: ver) ++ (fl.length :: fl) ++ (sv.length :: sv)) =
      .err "Not enough data" := by
  simp only [List.append_assoc, List.cons_append]
  simp only [parseDeviceInfo, parseBootBranch, parseAppBranch]
  rw [List.take_left' htid, List.drop_left' htid]
  simp only [List.getD_cons_zero, List.drop_one, List.tail_cons, List.length_append,
    List.length_cons, htid, List.take_left, List.drop_left, hver, bne_iff_ne,
    List.take_length, List.drop_length, List.length_take, List.length_nil]
  rw [if_neg (by omega), if_neg (by omega), if_neg (by simp), if_neg (by omega),
    if_pos hb, if_neg (by omega), if_neg (by omega), if_pos hsv5,
    if_neg (by simp [hsvu]), if_pos (by simp)]

lemma parse_trunc_p2len (tid ver fl sv : List Nat) (p : Nat) (htid : tid.length = 4)
    (hver : utf8Valid ver = true)
    (hb : (u32be tid &&& 4026531840) ≠ 805306368)
    (hsv5 : 5 ≤ sv.length)
    (hsvu : utf8Valid sv = true)
    (hp : 0 < p) :
    parseDeviceInfo
        (tid ++ (ver.length :: ver) ++ (fl.length :: fl) ++ (sv.length :: sv) ++ [p]) =
      .err "Not enough data" := by
  simp only [List.append_assoc, List.cons_append, List.singleton_append]
  simp only [parseDeviceInfo, parseBootBranch, parseAppBranch]
  rw [List.take_left' htid, List.drop_left' htid]
  simp only [List.getD_cons_zero, List.drop_one, List.tail_cons, List.length_append,
    List.length_cons, htid, List.take_left, List.drop_left, hver, bne_iff_ne,
    List.take_length, List.drop_length, List.length_take, List.length_nil]
  rw [if_neg (by omega), if_neg (by omega), if_neg (by simp), if_neg (by omega),
    if_pos hb, if_neg (by omega), if_neg (by omega), if_pos hsv5,
    if_neg (by simp [hsvu]), if_neg (by omega), if_pos (by omega)]

lemma parseBootBranch_fields (t : Nat) (v f r : List Nat) (info : DeviceInfo)
    (h : parseBootBranch t v f r = .ok info) :
    info.target_id = t ∧ info.is_bootloader = true := by
  simp only [parseBootBranch] at h
  split_ifs at h <;>
    first
      | exact PResult.noConfusion h
      | (injection h with h2; subst h2; exact ⟨rfl, rfl⟩)

lemma parseAppBranch_fields (t : Nat) (v f r : List Nat) (info : DeviceInfo)
    (h : parseAppBranch t v f r = .ok info) :
    info.target_id = t ∧ info.is_bootloader = false ∧
      info.se_version = some info.version ∧ info.se_target_id = info.target_id := by
  simp only [parseAppBranch] at h
  split_ifs at h <;>
    first
      | exact PResult.noConfusion h
      | (injection h with h2; subst h2; exact ⟨rfl, rfl, rfl, rfl⟩)

/-! Claim theorems for the identity decoder. -/

/-- Claim C1: for every valid identity response buffer (the encoding of
a well-formed identity description) and every truncation of it at a
field boundary, decoding the device identity returns the
"Not enough data" (`TruncatedInput`) error — an error return, never a
panic (and hence never an out-of-bounds read, which is modelled as
`PResult.panicked`).  Each listed truncation is a proper prefix of the
buffer, witnessed by the non-empty remainder `s`. -/
theorem c1_truncated_identity_errors (d : IdentDesc) (hwf : wfIdent d)
    (t : List Nat) (ht : t ∈ truncations d) :
    (∃ s, s ≠ [] ∧ encodeIdent d = t ++ s) ∧
      parseDeviceInfo t = .err "Not enough data" := by
  obtain ⟨tid, ver, fl, tl⟩ := d
  obtain ⟨htid, -, hvl, hver, -, hfl, -, hwt⟩ := hwf
  cases tl with
  | app mcu =>
    obtain ⟨hb, hml, hm, hmu, -⟩ := hwt
    simp only [truncations, List.cons_append, List.nil_append, List.mem_cons,
      List.not_mem_nil, or_false] at ht
    rcases ht with rfl | rfl | rfl | rfl | rfl | rfl
    · exact ⟨⟨(ver.length :: ver) ++ (fl.length :: fl) ++ (mcu.length :: mcu), by simp,
        by simp [encodeIdent, encodeTail, List.append_assoc]⟩, parse_trunc_tid _ htid⟩
    · exact ⟨⟨ver ++ (fl.length :: fl) ++ (mcu.length :: mcu), by simp,
        by simp [encodeIdent, encodeTail, List.append_assoc]⟩, parse_trunc_verlen _ _ htid⟩
    · exact ⟨⟨(fl.length :: fl) ++ (mcu.length :: mcu), by simp,
        by simp [encodeIdent, encodeTail, List.append_assoc]⟩, parse_trunc_ver _ _ htid⟩
    · exact ⟨⟨fl ++ (mcu.length :: mcu), by simp,
        by simp [encodeIdent, encodeTail, List.append_assoc]⟩,
        parse_trunc_flagslen _ _ _ htid hver⟩
    · exact ⟨⟨mcu.length :: mcu, by simp,
        by simp [encodeIdent, encodeTail, List.append_assoc]⟩,
        parse_trunc_flags _ _ _ htid hver⟩
    · exact ⟨⟨mcu, hm, by simp [encodeIdent, encodeTail, List.append_assoc]⟩,
        parse_trunc_mculen _ _ _ _ htid hver hb (List.length_pos.mpr hm)⟩
  | bootShort p1 =>
    obtain ⟨hb, hp4, -⟩ := hwt
    simp only [truncations, List.cons_append, List.nil_append, List.mem_cons,
      List.not_mem_nil, or_false] at ht
    rcases ht with rfl | rfl | rfl | rfl | rfl | rfl
    · exact ⟨⟨(ver.length :: ver) ++ (fl.length :: fl) ++ (p1.length :: p1), by simp,
        by simp [encodeIdent, encodeTail, List.append_assoc]⟩, parse_trunc_tid _ htid⟩
    · exact ⟨⟨ver ++ (fl.length :: fl) ++ (p1.length :: p1), by simp,
        by simp [encodeIdent, encodeTail, List.append_assoc]⟩, parse_trunc_verlen _ _ htid⟩
    · exact ⟨⟨(fl.length :: fl) ++ (p1.length :: p1), by simp,
        by simp [encodeIdent, encodeTail, List.append_assoc]⟩, parse_trunc_ver _ _ htid⟩
    · exact ⟨⟨fl ++ (p1.length :: p1), by simp,
        by simp [encodeIdent, encodeTail, List.append_assoc]⟩,
        parse_trunc_flagslen _ _ _ htid hver⟩
    · exact ⟨⟨p1.length :: p1, by simp,
        by simp [encodeIdent, encodeTail, List.append_assoc]⟩,
        parse_trunc_flags _ _ _ htid hver⟩
    · exact ⟨⟨p1, by simp [← List.length_pos, hp4],
        by simp [encodeIdent, encodeTail, List.append_assoc]⟩,
        parse_trunc_p1len _ _ _ _ htid hver hb (by omega)⟩
  | bootLong sv p2 =>
    obtain ⟨hb, hsv5, hsvl, hsvu, -, hp24, -⟩ := hwt
    simp only [truncations, List.cons_append, List.nil_append, List.mem_cons,
      List.not_mem_nil, or_false] at ht
    rcases ht with rfl | rfl | rfl | rfl | rfl | rfl | rfl | rfl
    · exact ⟨⟨(ver.length :: ver) ++ (fl.length :: fl) ++
          ((sv.length :: sv) ++ (p2.length :: p2)),
        by simp, by simp [encodeIdent, encodeTail, List.append_assoc]⟩, parse_trunc_tid _ htid⟩
    · exact ⟨⟨ver ++ (fl.length :: fl) ++ ((sv.length :: sv) ++ (p2.length :: p2)), by simp,
        by simp [encodeIdent, encodeTail, List.append_assoc]⟩, parse_trunc_verlen _ _ htid⟩
    · exact ⟨⟨(fl.length :: fl) ++ ((sv.length :: sv) ++ (p2.length :: p2)), by simp,
        by simp [encodeIdent, encodeTail, List.append_assoc]⟩, parse_trunc_ver _ _ htid⟩
    · exact ⟨⟨fl ++ ((sv.length :: sv) ++ (p2.length :: p2)), by simp,
        by simp [encodeIdent, encodeTail, List.append_assoc]⟩,
        parse_trunc_flagslen _ _ _ htid hver⟩
    · exact ⟨⟨(sv.length :: sv) ++ (p2.length :: p2), by simp,
        by simp [encodeIdent, encodeTail, List.append_assoc]⟩,
        parse_trunc_flags _ _ _ htid hver⟩
    · exact ⟨⟨sv ++ (p2.length :: p2), by simp,
        by simp [encodeIdent, encodeTail, List.append_assoc]⟩,
        parse_trunc_p1len _ _ _ _ htid hver hb (by omega)⟩
    · exact ⟨⟨p2.length :: p2, by simp,
        by simp [encodeIdent, encodeTail, List.append_assoc]⟩,
        parse_trunc_sever _ _ _ _ htid hver hb hsv5 hsvu⟩
    · exact ⟨⟨p2, by simp [← List.length_pos, hp24],
        by simp [encodeIdent, encodeTail, List.append_assoc]⟩,
        parse_trunc_p2len _ _ _ _ _ htid hver hb hsv5 hsvu (by omega)⟩

/-- Witness for claim C1 at a concrete application-mode buffer,
truncated after the target-id field. -/
theorem c1_witness :
    wfIdent ⟨[49, 0, 0, 16], [49, 46, 48], [7], .app [97]⟩ ∧
      [49, 0, 0, 16] ∈ truncations ⟨[49, 0, 0, 16], [49, 46, 48], [7], .app [97]⟩ ∧
      ((∃ s, s ≠ [] ∧
          encodeIdent ⟨[49, 0, 0, 16], [49, 46, 48], [7], .app [97]⟩ = [49, 0, 0, 16] ++ s) ∧
        parseDeviceInfo [49, 0, 0, 16] = .err "Not enough data") :=
  ⟨by decide, by decide,
    c1_truncated_identity_errors ⟨[49, 0, 0, 16], [49, 46, 48], [7], .app [97]⟩ (by decide)
      [49, 0, 0, 16] (by decide)⟩

/-- Counterexample to claim C2 as stated: on a bootloader-mode buffer
whose `part1` has length 5 and whose `part2` has length 3 (not 4), the
decoder panics (`try_into().unwrap()`); it does not return an error. -/
theorem c2_counterexample :
    parseDeviceInfo [0, 0, 0, 0, 0, 0, 5, 49, 46, 50, 46, 51, 3, 1, 2, 3] = .panicked ∧
      ∀ e, parseDeviceInfo [0, 0, 0, 0, 0, 0, 5, 49, 46, 50, 46, 51, 3, 1, 2, 3] ≠
        .err e := by
  have h : parseDeviceInfo [0, 0, 0, 0, 0, 0, 5, 49, 46, 50, 46, 51, 3, 1, 2, 3] =
      .panicked := by decide
  exact ⟨h, fun e he => PResult.noConfusion (h ▸ he)⟩

/-- Claim C2 (amended): in bootloader mode, when `part1` has length at
least 5, the decoder reads one further length-prefixed field `part2` and
decodes it as the 4-byte big-endian secure-element target id (with
`part1` as the secure-element version); but when `part2` is not exactly
4 bytes the decoder *panics* (`unwrap` of the 4-byte conversion) rather
than returning an error. -/
theorem c2_bootloader_part2 (tid ver fl sv p2 : List Nat)
    (htid : tid.length = 4)
    (hver : utf8Valid ver = true)
    (hb : (u32be tid &&& 4026531840) ≠ 805306368)
    (hsv5 : 5 ≤ sv.length)
    (hsvu : utf8Valid sv = true) :
    parseDeviceInfo (encodeIdent ⟨tid, ver, fl, .bootLong sv p2⟩) =
      if p2.length = 4 then .ok ⟨u32be tid, ver, fl, true, some sv, u32be p2, none⟩
      else .panicked := by
  rw [parse_encode_bootLong tid ver fl sv p2 htid hver hb hsv5 hsvu]
  rfl

/-- Witness for (amended) claim C2 at a concrete bootloader buffer with
a 4-byte `part2`. -/
theorem c2_witness :
    ([0, 0, 0, 0] : List Nat).length = 4 ∧
      utf8Valid [] = true ∧
      (u32be [0, 0, 0, 0] &&& 4026531840) ≠ 805306368 ∧
      5 ≤ ([49, 46, 50, 46, 51] : List Nat).length ∧
      utf8Valid [49, 46, 50, 46, 51] = true ∧
      parseDeviceInfo (encodeIdent ⟨[0, 0, 0, 0], [], [], .bootLong [49, 46, 50, 46, 51]
          [1, 2, 3, 4]⟩) =
        if ([1, 2, 3, 4] : List Nat).length = 4
        then .ok ⟨u32be [0, 0, 0, 0], [], [], true, some [49, 46, 50, 46, 51],
          u32be [1, 2, 3, 4], none⟩
        else .panicked :=
  ⟨by decide, by decide, by decide, by decide, by decide,
    c2_bootloader_part2 [0, 0, 0, 0] [] [] [49, 46, 50, 46, 51] [1, 2, 3, 4]
      (by decide) (by decide) (by decide) (by decide) (by decide)⟩

/-- Claim C7: every successfully decoded identity has
`is_bootloader = (target_id & 0xF0000000) != 0x30000000`, and in
application mode (`is_bootloader = false`) its secure-element version
equals the reported version string and its secure-element target id
equals `target_id`. -/
theorem c7_bootloader_discriminator (data : List Nat) (info : DeviceInfo)
    (h : parseDeviceInfo data = .ok info) :
    info.is_bootloader = ((info.target_id &&& 4026531840) != 805306368) ∧
      (info.is_bootloader = false →
        info.se_version = some info.version ∧ info.se_target_id = info.target_id) := by
  simp only [parseDeviceInfo] at h
  split_ifs at h with h1 h2 h3 h4 h5
  · obtain ⟨hti, hbo⟩ := parseBootBranch_fields _ _ _ _ _ h
    refine ⟨by rw [hbo, hti]; exact h5.symm, fun hf => ?_⟩
    rw [hbo] at hf
    exact absurd hf (by simp)
  · obtain ⟨hti, hbo, hsv, hsti⟩ := parseAppBranch_fields _ _ _ _ _ h
    have h5f : (u32be (data.take 4) &&& 4026531840 != 805306368) = false := by
      simpa using h5
    exact ⟨by rw [hbo, hti]; exact h5f.symm, fun _ => ⟨hsv, hsti⟩⟩

/-- Witness for claim C7 at a concrete application-mode buffer. -/
theorem c7_witness :
    parseDeviceInfo [49, 0, 0, 16, 3, 49, 46, 48, 0, 1, 97] =
        .ok ⟨822083600, [49, 46, 48], [], false, some [49, 46, 48], 822083600, some [97]⟩ ∧
      ((false : Bool) = ((822083600 &&& 4026531840) != 805306368) ∧
        ((false : Bool) = false →
          some [49, 46, 48] = some [49, 46, 48] ∧ 822083600 = 822083600)) :=
  ⟨by decide,
    c7_bootloader_discriminator [49, 0, 0, 16, 3, 49, 46, 48, 0, 1, 97]
      ⟨822083600, [49, 46, 48], [], false, some [49, 46, 48], 822083600, some [97]⟩
      (by decide)⟩

/-! Inventory-protocol lemmas and claim theorems. -/

lemma u16be_be2 (n : Nat) (h : n < 65536) : u16be (be2 n) = n := by
  simp [u16be, be2]
  omega

lemma parseAppsEntries_encode (a : InstalledApp) (rest : List Nat)
    (acc : List InstalledApp) (hwf : wfEntry a) :
    parseAppsEntries (encodeEntry a ++ rest) acc = parseAppsEntries rest (acc ++ [a]) := by
  obtain ⟨hb, hf, hcd, hh, hnl, hnu, -⟩ := hwf
  have hb2 : (be2 a.blocks).length = 2 := by simp [be2]
  have hf2 : (be2 a.flags).length = 2 := by simp [be2]
  rw [parseAppsEntries]
  simp only [encodeEntry, List.cons_append, List.append_assoc]
  rw [dif_neg (by simp)]
  rw [dif_neg (by
    simp only [List.length_cons, List.length_append, hb2, hf2, hcd, hh]
    omega)]
  simp only [List.getD_cons_zero, List.drop_one, List.tail_cons]
  rw [List.take_left' hb2, List.drop_left' hb2, List.take_left' hf2, List.drop_left' hf2,
    List.take_left' hcd, List.drop_left' hcd, List.take_left' hh, List.drop_left' hh]
  simp only [List.getD_cons_zero, List.drop_one, List.tail_cons]
  rw [if_neg (by simp only [List.length_append]; omega), if_neg (by omega),
    List.take_left, List.drop_left]
  rw [if_neg (by simp [hnu])]
  rw [u16be_be2 _ hb, u16be_be2 _ hf]

lemma parseAppsEntries_flat (g : List InstalledApp) (acc : List InstalledApp)
    (h : ∀ a ∈ g, wfEntry a) :
    parseAppsEntries (g.flatMap encodeEntry) acc = .ok (acc ++ g) := by
  induction g generalizing acc with
  | nil => rw [parseAppsEntries]; simp
  | cons a g ih =>
    rw [List.flatMap_cons, parseAppsEntries_encode a _ acc (h a (by simp))]
    rw [ih _ (fun b hb => h b (by simp [hb]))]
    simp

lemma listGo_encode (groups : List (List InstalledApp)) (junk : List (List Nat))
    (acc : List InstalledApp) (h : ∀ a ∈ groups.flatten, wfEntry a) :
    listInstalledAppsGo (groups.map (fun g => 1 :: g.flatMap encodeEntry) ++ ([] :: junk))
        acc = .ok (acc ++ groups.flatten) := by
  induction groups generalizing acc with
  | nil => simp [listInstalledAppsGo]
  | cons g gs ih =>
    simp only [List.map_cons, List.cons_append, listInstalledAppsGo]
    rw [if_neg (by simp), if_neg (by simp)]
    simp only [List.drop_one, List.tail_cons]
    rw [parseAppsEntries_flat g acc (fun a ha => h a (by simp [ha]))]
    dsimp only
    rw [List.append_eq, ih _ (fun a ha => h a (by simp [ha]))]
    simp

/-- Counterexample to claim C3 as stated: on a response batch whose
non-empty payload starts with `0x02` instead of marker `0x01`, listing
installed applications panics (the `assert_eq!`); it does not return an
error. -/
theorem c3_counterexample :
    listInstalledAppsRaw [[2]] = .panicked ∧
      ∀ e, listInstalledAppsRaw [[2]] ≠ .err e := by
  have h : listInstalledAppsRaw [[2]] = .panicked := by decide
  exact ⟨h, fun e he => PResult.noConfusion (h ▸ he)⟩

/-- Claim C3 (amended): for every first or continuation response batch
whose non-empty payload does not begin with marker byte `0x01`,
listing installed applications *panics* (the `assert_eq!(data[i], 0x01)`
assertion fails); no `ProtocolViolation` error is returned.  The first
conjunct covers the loop at any continuation state `acc`; the second is
the first-batch instance. -/
theorem c3_bad_marker_panics (data : List Nat) (rest : List (List Nat))
    (acc : List InstalledApp) (h1 : data ≠ []) (h2 : data.getD 0 0 ≠ 1) :
    listInstalledAppsGo (data :: rest) acc = .panicked ∧
      listInstalledAppsRaw (data :: rest) = .panicked := by
  have h : ∀ a, listInstalledAppsGo (data :: rest) a = .panicked := fun a => by
    rw [listInstalledAppsGo]
    rw [if_neg (by simpa using h1), if_pos h2]
  exact ⟨h acc, h []⟩

/-- Witness for (amended) claim C3 at a concrete bad batch. -/
theorem c3_witness :
    ([2] : List Nat) ≠ [] ∧ ([2] : List Nat).getD 0 0 ≠ 1 ∧
      (listInstalledAppsGo [[2]] [] = .panicked ∧
        listInstalledAppsRaw [[2]] = .panicked) :=
  ⟨by decide, by decide, c3_bad_marker_panics [2] [] [] (by decide) (by decide)⟩

/-- Claim C4: for every sequence of well-formed inventory entries and
every partition of them into consecutive batches (each prefixed with
marker byte `0x01`), followed by an empty response payload,
`list_installed_apps_raw` returns exactly the entries in their original
order; the loop stops at the first empty payload (any further scripted
responses `junk` are never consumed). -/
theorem c4_inventory_roundtrip (groups : List (List InstalledApp))
    (junk : List (List Nat)) (h : ∀ a ∈ groups.flatten, wfEntry a) :
    listInstalledAppsRaw (groups.map (fun g => 1 :: g.flatMap encodeEntry) ++ ([] :: junk)) =
      .ok groups.flatten := by
  simpa [listInstalledAppsRaw] using listGo_encode groups junk [] h

/-- Witness for claim C4: two entries split across two batches, with a
trailing never-consumed response after the terminating empty payload. -/
theorem c4_witness :
    (∀ a ∈ [[InstalledApp.mk [65] (List.replicate 32 1) (List.replicate 32 2) 3 4],
        [InstalledApp.mk [66] (List.replicate 32 5) (List.replicate 32 6) 7 8]].flatten,
      wfEntry a) ∧
    listInstalledAppsRaw
        ([[InstalledApp.mk [65] (List.replicate 32 1) (List.replicate 32 2) 3 4],
          [InstalledApp.mk [66] (List.replicate 32 5) (List.replicate 32 6) 7 8]].map
            (fun g => 1 :: g.flatMap encodeEntry) ++ ([] :: [[9]])) =
      .ok [InstalledApp.mk [65] (List.replicate 32 1) (List.replicate 32 2) 3 4,
        InstalledApp.mk [66] (List.replicate 32 5) (List.replicate 32 6) 7 8] := by
  refine ⟨by decide, ?_⟩
  have h := c4_inventory_roundtrip
    [[InstalledApp.mk [65] (List.replicate 32 1) (List.replicate 32 2) 3 4],
      [InstalledApp.mk [66] (List.replicate 32 5) (List.replicate 32 6) 7 8]]
    [[9]] (by decide)
  simpa using h

/-! Relay state machine lemmas and claim theorems. -/

/-- One-step unfolding of `runRelayGo` on a text message. -/
lemma runRelayGo_text (m : HsmMessage) (rest : List WsIncoming) (device : List Response)
    (sent : List WsReply) :
    runRelayGo (.text m :: rest) device sent =
      (if m.query = "exchange" then
        match m.data with
        | some (.command h) =>
          match deserApduCommand h with
          | .error e => .failed e sent
          | .ok _ =>
            match device with
            | [] => .failed "transport error" sent
            | resp :: device2 =>
              let response := if resp.retcode = 36864 then "success" else "error"
              runRelayGo rest device2 (sent ++ [⟨m.nonce, response, hexEncode resp.data⟩])
        | _ => .failed "A single command is expected in 'exchange' mode." sent
      else if m.query = "bulk" then
        match m.data with
        | some (.commandList l) =>
          match bulkExec l device with
          | .error e => .failed e sent
          | .ok device2 => runRelayGo rest device2 (sent ++ [⟨m.nonce, "success", []⟩])
        | _ => .failed "Expecting a list of commands in bulk mode." sent
      else if m.query = "success" then .completed sent
      else if m.query = "error" then .failed "Got an error query on the ws." sent
      else if m.query = "warning" then runRelayGo rest device sent
      else .failed "Got an unsupported query on the ws." sent) := rfl

/-- One-step unfolding of `bulkExec` on a non-empty command list. -/
lemma bulkExec_cons (c : List Char) (rest : List (List Char)) (device : List Response) :
    bulkExec (c :: rest) device =
      (if c.isEmpty then bulkExec rest device
      else
        match deserApduCommand c with
        | .error e => .error e
        | .ok _ =>
          match device with
          | [] => .error "transport error"
          | _ :: device2 => bulkExec rest device2) := rfl

lemma bulkExec_ok (l : List (List Char)) (device : List Response)
    (hall : ∀ c ∈ l, c.isEmpty = false → ∃ cmd, deserApduCommand c = .ok cmd)
    (hdev : countNonEmpty l ≤ device.length) :
    bulkExec l device = .ok (device.drop (countNonEmpty l)) := by
  induction l generalizing device with
  | nil => simp [bulkExec, countNonEmpty]
  | cons c rest ih =>
    by_cases hc : c.isEmpty
    · rw [bulkExec_cons, if_pos hc]
      have hcount : countNonEmpty (c :: rest) = countNonEmpty rest := by
        simp [countNonEmpty, List.filter_cons, hc]
      rw [hcount] at hdev ⊢
      exact ih device (fun x hx hxe => hall x (by simp [hx]) hxe) hdev
    · have hcount : countNonEmpty (c :: rest) = countNonEmpty rest + 1 := by
        simp [countNonEmpty, List.filter_cons, hc]
      obtain ⟨cmd, hcmd⟩ := hall c (by simp) (by simpa using hc)
      rw [bulkExec_cons, if_neg hc, hcmd]
      obtain ⟨d, ds, rfl⟩ : ∃ d ds, device = d :: ds := by
        cases device with
        | nil => rw [hcount] at hdev; simp at hdev
        | cons d ds => exact ⟨d, ds, rfl⟩
      rw [hcount] at hdev
      have hdev2 : countNonEmpty rest ≤ ds.length := by
        simp only [List.length_cons] at hdev; omega
      dsimp only
      rw [ih ds (fun x hx hxe => hall x (by simp [hx]) hxe) hdev2, hcount]
      simp

lemma bulkExec_err (pre : List (List Char)) (bad : List Char) (post : List (List Char))
    (device : List Response) (e : String)
    (hpre : ∀ c ∈ pre, c.isEmpty = false → ∃ cmd, deserApduCommand c = .ok cmd)
    (hdev : countNonEmpty pre ≤ device.length)
    (hbad1 : bad.isEmpty = false) (hbad2 : deserApduCommand bad = .error e) :
    bulkExec (pre ++ bad :: post) device = .error e := by
  induction pre generalizing device with
  | nil =>
    rw [List.nil_append, bulkExec_cons, if_neg (by simp [hbad1]), hbad2]
  | cons c rest ih =>
    by_cases hc : c.isEmpty
    · rw [List.cons_append, bulkExec_cons, if_pos hc]
      have hcount : countNonEmpty (c :: rest) = countNonEmpty rest := by
        simp [countNonEmpty, List.filter_cons, hc]
      rw [hcount] at hdev
      exact ih device (fun x hx hxe => hpre x (by simp [hx]) hxe) hdev
    · have hcount : countNonEmpty (c :: rest) = countNonEmpty rest + 1 := by
        simp [countNonEmpty, List.filter_cons, hc]
      obtain ⟨cmd, hcmd⟩ := hpre c (by simp) (by simpa using hc)
      rw [List.cons_append, bulkExec_cons, if_neg hc, hcmd]
      obtain ⟨d, ds, rfl⟩ : ∃ d ds, device = d :: ds := by
        cases device with
        | nil => rw [hcount] at hdev; simp at hdev
        | cons d ds => exact ⟨d, ds, rfl⟩
      rw [hcount] at hdev
      have hdev2 : countNonEmpty rest ≤ ds.length := by
        simp only [List.length_cons] at hdev; omega
      dsimp only
      exact ih ds (fun x hx hxe => hpre x (by simp [hx]) hxe) hdev2

lemma bulkExec_exhausted (l : List (List Char)) (device : List Response)
    (hall : ∀ c ∈ l, c.isEmpty = false → ∃ cmd, deserApduCommand c = .ok cmd)
    (hdev : device.length < countNonEmpty l) :
    bulkExec l device = .error "transport error" := by
  induction l generalizing device with
  | nil => simp [countNonEmpty] at hdev
  | cons c rest ih =>
    by_cases hc : c.isEmpty
    · rw [bulkExec_cons, if_pos hc]
      have hcount : countNonEmpty (c :: rest) = countNonEmpty rest := by
        simp [countNonEmpty, List.filter_cons, hc]
      rw [hcount] at hdev
      exact ih device (fun x hx hxe => hall x (by simp [hx]) hxe) hdev
    · have hcount : countNonEmpty (c :: rest) = countNonEmpty rest + 1 := by
        simp [countNonEmpty, List.filter_cons, hc]
      obtain ⟨cmd, hcmd⟩ := hall c (by simp) (by simpa using hc)
      rw [bulkExec_cons, if_neg hc, hcmd]
      cases device with
      | nil => rfl
      | cons d ds =>
        dsimp only
        refine ih ds (fun x hx hxe => hall x (by simp [hx]) hxe) ?_
        rw [hcount] at hdev
        simp only [List.length_cons] at hdev
        omega

/-- Claim C5: on an `exchange` instruction carrying a well-formed hex
command, the relay loop consumes one device response and sends exactly
one reply `{nonce, response, data}` with the instruction's nonce, with
`data` the hex encoding of the response payload (the payload is echoed
in both the success and the error case), and with `response` equal to
"success" exactly when the device status is `0x9000` (36864) and
"error" otherwise. -/
theorem c5_exchange_one_reply (h : List Char) (cmd : ApduCommand) (n : Nat)
    (msgs : List WsIncoming) (device : List Response) (sent : List WsReply)
    (resp : Response)
    (hdec : deserApduCommand h = .ok cmd) :
    runRelayGo (.text ⟨"exchange", n, some (.command h)⟩ :: msgs) (resp :: device) sent =
      runRelayGo msgs device
        (sent ++ [⟨n, if resp.retcode = 36864 then "success" else "error",
          hexEncode resp.data⟩]) ∧
      ((if resp.retcode = 36864 then "success" else "error") = "success" ↔
        resp.retcode = 36864) := by
  constructor
  · rw [runRelayGo_text]
    simp [hdec]
  · by_cases hr : resp.retcode = 36864 <;> simp [hr]

/-- Witness for claim C5 at a concrete exchange instruction and device
response. -/
theorem c5_witness :
    deserApduCommand goodHexCmd = .ok ⟨224, 1, 0, 0, []⟩ ∧
      (runRelayGo (.text ⟨"exchange", 7, some (.command goodHexCmd)⟩ :: [])
          (⟨[171, 205], 36864⟩ :: []) [] =
        runRelayGo [] []
          ([] ++ [⟨7, if (36864 : Nat) = 36864 then "success" else "error",
            hexEncode [171, 205]⟩]) ∧
        ((if (36864 : Nat) = 36864 then "success" else "error") = "success" ↔
          (36864 : Nat) = 36864)) :=
  ⟨rfl, c5_exchange_one_reply goodHexCmd ⟨224, 1, 0, 0, []⟩ 7 [] [] [] ⟨[171, 205], 36864⟩ rfl⟩

/-- Claim C6: on a `bulk` instruction, every non-empty entry is decoded
and executed in order (one device exchange per non-empty entry, results
discarded), empty entries are skipped, and exactly one reply
`{nonce, "success", ""}` is sent after the whole list completes; if
some entry fails to decode, or executing an entry fails (the device
channel gives out), the whole bulk step aborts with that error and no
reply is sent (the sent list is unchanged in the failure result). -/
theorem c6_bulk_all_or_nothing :
    (∀ (l : List (List Char)) (n : Nat) (msgs : List WsIncoming)
      (device : List Response) (sent : List WsReply),
      (∀ c ∈ l, c.isEmpty = false → ∃ cmd, deserApduCommand c = .ok cmd) →
      countNonEmpty l ≤ device.length →
      runRelayGo (.text ⟨"bulk", n, some (.commandList l)⟩ :: msgs) device sent =
        runRelayGo msgs (device.drop (countNonEmpty l)) (sent ++ [⟨n, "success", []⟩])) ∧
    (∀ (pre : List (List Char)) (bad : List Char) (post : List (List Char)) (n : Nat)
      (msgs : List WsIncoming) (device : List Response) (sent : List WsReply) (e : String),
      (∀ c ∈ pre, c.isEmpty = false → ∃ cmd, deserApduCommand c = .ok cmd) →
      countNonEmpty pre ≤ device.length →
      bad.isEmpty = false → deserApduCommand bad = .error e →
      runRelayGo (.text ⟨"bulk", n, some (.commandList (pre ++ bad :: post))⟩ :: msgs)
        device sent = .failed e sent) ∧
    (∀ (l : List (List Char)) (n : Nat) (msgs : List WsIncoming)
      (device : List Response) (sent : List WsReply),
      (∀ c ∈ l, c.isEmpty = false → ∃ cmd, deserApduCommand c = .ok cmd) →
      device.length < countNonEmpty l →
      runRelayGo (.text ⟨"bulk", n, some (.commandList l)⟩ :: msgs) device sent =
        .failed "transport error" sent) := by
  refine ⟨?_, ?_, ?_⟩
  · intro l n msgs device sent hall hdev
    rw [runRelayGo_text]
    simp [bulkExec_ok l device hall hdev]
  · intro pre bad post n msgs device sent e hpre hdev hbad1 hbad2
    rw [runRelayGo_text]
    simp [bulkExec_err pre bad post device e hpre hdev hbad1 hbad2]
  · intro l n msgs device sent hall hdev
    rw [runRelayGo_text]
    simp [bulkExec_exhausted l device hall hdev]

/-- Witness for claim C6: a successful bulk (two valid entries, one
empty entry skipped) and an aborted bulk (one malformed entry among
valid ones, no reply sent). -/
theorem c6_witness :
    runRelayGo (.text ⟨"bulk", 5, some (.commandList [goodHexCmd, [], goodHexCmd])⟩ :: [])
        [⟨[], 36864⟩, ⟨[], 36864⟩] [] =
      runRelayGo [] ([⟨[], 36864⟩, ⟨[], 36864⟩].drop
        (countNonEmpty [goodHexCmd, [], goodHexCmd])) ([] ++ [⟨5, "success", []⟩]) ∧
    runRelayGo (.text ⟨"bulk", 6, some (.commandList ([goodHexCmd] ++ badHexCmd :: [[]]))⟩
        :: []) [⟨[], 36864⟩] [] = .failed "invalid hex" [] ∧
    runRelayGo (.text ⟨"bulk", 8, some (.commandList [goodHexCmd])⟩ :: []) [] [] =
      .failed "transport error" [] := by
  have hgood : ∀ c ∈ [goodHexCmd, [], goodHexCmd], c.isEmpty = false →
      ∃ cmd, deserApduCommand c = .ok cmd := by
    intro c hcmem hne
    simp only [List.mem_cons, List.not_mem_nil, or_false] at hcmem
    rcases hcmem with rfl | rfl | rfl
    · exact ⟨⟨224, 1, 0, 0, []⟩, rfl⟩
    · simp at hne
    · exact ⟨⟨224, 1, 0, 0, []⟩, rfl⟩
  have hpre : ∀ c ∈ [goodHexCmd], c.isEmpty = false →
      ∃ cmd, deserApduCommand c = .ok cmd := by
    intro c hcmem hne
    simp only [List.mem_cons, List.not_mem_nil, or_false] at hcmem
    rcases hcmem with rfl
    exact ⟨⟨224, 1, 0, 0, []⟩, rfl⟩
  exact ⟨c6_bulk_all_or_nothing.1 [goodHexCmd, [], goodHexCmd] 5 [] _ [] hgood (by decide),
    c6_bulk_all_or_nothing.2.1 [goodHexCmd] badHexCmd [[]] 6 [] _ [] "invalid hex" hpre
      (by decide) (by decide) rfl,
    c6_bulk_all_or_nothing.2.2 [goodHexCmd] 8 [] [] [] hpre (by decide)⟩

/-! Use-case orchestration lemmas and claim theorems. -/

lemma raw_btc : listInstalledAppsRaw [1 :: encodeEntry btcEntry, []] = .ok [btcEntry] := by
  simpa using listGo_encode [[btcEntry]] [] [] (by decide)

lemma inst_btc : bitcoinAppInstalled envNullHash false = .ok (some btcEntry) := by
  unfold bitcoinAppInstalled
  have hb : envNullHash.listAppsBatches = [1 :: encodeEntry btcEntry, []] := rfl
  rw [hb, raw_btc]
  rfl

lemma inst_btc2 : bitcoinAppInstalled envEmptyHash false = .ok (some btcEntry) := by
  unfold bitcoinAppInstalled
  have hb : envEmptyHash.listAppsBatches = [1 :: encodeEntry btcEntry, []] := rfl
  rw [hb, raw_btc]
  rfl

/-- Claim C9: whenever an application matching the requested variant is
already installed (found by the case-insensitive name match of
`bitcoin_app_installed`), install returns `AlreadyInstalled` having made
no catalog request (the event list is empty) and without reaching the
relay channel. -/
theorem c9_install_already_installed (env : LedgerEnv) (t : Bool) (app : InstalledApp)
    (h : bitcoinAppInstalled env t = .ok (some app)) :
    installBitcoinApp env t = (.alreadyInstalled, []) := by
  unfold installBitcoinApp
  rw [h]

/-- Witness for claim C9: the mainnet Bitcoin app is installed, so
install fails fast with `AlreadyInstalled` and no catalog request. -/
theorem c9_witness :
    bitcoinAppInstalled envNullHash false = .ok (some btcEntry) ∧
      installBitcoinApp envNullHash false = (.alreadyInstalled, []) :=
  ⟨inst_btc, c9_install_already_installed envNullHash false btcEntry inst_btc⟩

/-- Counterexample to claim C8 as stated: the Bitcoin app is installed
and the catalog's hash lookup has *no record* for its content hash (the
response is `[null]`, aligned with the request as the API specifies);
update does not fail with `AppNotFound` — it proceeds all the way to
opening the relay channel with the latest record. -/
theorem c8_counterexample :
    updateBitcoinApp envNullHash false =
      (.relay diApp btcAppInfo, [.hashLookup [btcEntry.hash], .byTarget diApp]) := by
  unfold updateBitcoinApp
  rw [inst_btc]
  rfl

/-- Claim C8 (amended): after an installed application matching the
variant is found, update fails with `AppNotFound` (before any by-target
request and without reaching the relay channel) only when the hash
lookup's response contains *no element at all* (an empty array); a
null record for the hash does not trigger `AppNotFound` — update
proceeds, treating the installed app's metadata as unknown. -/
theorem c8_update_empty_hash_lookup (env : LedgerEnv) (t : Bool) (app : InstalledApp)
    (h1 : bitcoinAppInstalled env t = .ok (some app))
    (h2 : env.hashResp [app.hash] = .ok []) :
    updateBitcoinApp env t = (.appNotFound, [.hashLookup [app.hash]]) := by
  unfold updateBitcoinApp
  rw [h1]
  dsimp only
  simp [bitcoinAppsByHashes, h2]

/-- Witness for (amended) claim C8: the hash lookup answers with an
empty array and update stops at `AppNotFound`. -/
theorem c8_witness :
    bitcoinAppInstalled envEmptyHash false = .ok (some btcEntry) ∧
      envEmptyHash.hashResp [btcEntry.hash] = .ok [] ∧
      updateBitcoinApp envEmptyHash false =
        (.appNotFound, [.hashLookup [btcEntry.hash]]) :=
  ⟨inst_btc2, rfl,
    c8_update_empty_hash_lookup envEmptyHash false btcEntry inst_btc2 rfl⟩

/-- Claim C10: the catalog hash lookup on an empty hash list returns
the empty list without performing any HTTP request (no event), and
consequently listing installed application metadata for a device whose
raw inventory is empty returns the empty list without contacting the
catalog. -/
theorem c10_empty_hashes_no_request (env : LedgerEnv)
    (h : listInstalledAppsRaw env.listAppsBatches = .ok []) :
    bitcoinAppsByHashes env [] = (.ok [], []) ∧
      listInstalledAppsMeta env = (.ok [], []) := by
  constructor
  · simp [bitcoinAppsByHashes]
  · unfold listInstalledAppsMeta
    rw [h]
    rfl

/-- Witness for claim C10: a device that reports no installed
applications. -/
theorem c10_witness :
    listInstalledAppsRaw envNoApps.listAppsBatches = .ok [] ∧
      (bitcoinAppsByHashes envNoApps [] = (.ok [], []) ∧
        listInstalledAppsMeta envNoApps = (.ok [], [])) :=
  ⟨rfl, c10_empty_hashes_no_request envNoApps rfl⟩

end LedgerSpec
